import Mathlib

/-!
Verification of `scripts/generate_work_pages.py`.

The script is embedded shallowly: Python cell values become the inductive
type `Value`, Python strings become Lean `String`s (manipulated through
char-list operations mirroring CPython semantics), fallible code returns
`Except PyErr`, and the file-writing loop of `main` becomes explicit state
passing over `RunState`.
-/

set_option maxRecDepth 8000

namespace GenWorkPages

/-- A calendar date as stored in a Python `datetime.date` cell. -/
structure PyDate where
  year : Nat
  month : Nat
  day : Nat
deriving DecidableEq

/-- Raw Python cell values as they occur in this script: `None`, booleans,
ints, floats, strings, lists of strings (every list in the script comes from
`parse_list`, which produces `List[str]`), dates and datetimes.  A float is
represented by its `str()`/`repr()` rendering together with
`some n` when `float.is_integer()` holds and `int(v) = n`, else `none`. -/
inductive Value where
  | none
  | bool (b : Bool)
  | int (n : Int)
  | float (r : String) (i : Option Int)
  | str (s : String)
  | list (xs : List String)
  | date (d : PyDate)
  | datetime (d : PyDate) (hh mm ss : Nat)
deriving DecidableEq

/-- Python exceptions raised by the script (`ValueError` from `slug_id`
and from `datetime.date`). -/
inductive PyErr where
  | valueError (msg : String)
deriving DecidableEq

instance {ε α : Type} [DecidableEq ε] [DecidableEq α] : DecidableEq (Except ε α) :=
  fun a b =>
    match a, b with
    | Except.ok x, Except.ok y =>
      if h : x = y then isTrue (by rw [h])
      else isFalse (by intro hh; injection hh; contradiction)
    | Except.error x, Except.error y =>
      if h : x = y then isTrue (by rw [h])
      else isFalse (by intro hh; injection hh; contradiction)
    | Except.ok _, Except.error _ => isFalse (by intro hh; exact Except.noConfusion hh)
    | Except.error _, Except.ok _ => isFalse (by intro hh; exact Except.noConfusion hh)

/-- The whitespace characters stripped by Python `str.strip()` (ASCII part). -/
def isPySpace (c : Char) : Bool :=
  c == ' ' || c == '\t' || c == '\n' || c == '\r' || c == '\x0b' || c == '\x0c'

/-- Python `str.strip()`. -/
def pyStrip (s : String) : String :=
  String.mk (((s.data.dropWhile isPySpace).reverse.dropWhile isPySpace).reverse)

/-- Python `str.rstrip()`. -/
def pyRstrip (s : String) : String :=
  String.mk ((s.data.reverse.dropWhile isPySpace).reverse)

/-- Python `sep.join(pieces)`. -/
def pyJoin (sep : String) : List String → String
  | [] => ""
  | [s] => s
  | s :: rest => s ++ sep ++ pyJoin sep rest

/-- Python `str.zfill(width)` (with the sign handling of CPython). -/
def zfill (s : String) (w : Nat) : String :=
  if w ≤ s.length then s
  else
    match s.data with
    | [] => String.mk (List.replicate (w - s.length) '0')
    | c :: rest =>
      if c = '+' ∨ c = '-' then
        String.mk (c :: (List.replicate (w - s.length) '0' ++ rest))
      else String.mk (List.replicate (w - s.length) '0' ++ (c :: rest))

/-- Zero-pad a natural number to two digits (CPython `%02d`). -/
def pad2 (n : Nat) : String := zfill (toString n) 2

/-- Zero-pad a natural number to four digits (CPython `%04d`). -/
def pad4 (n : Nat) : String := zfill (toString n) 4

/-- Python `date.isoformat()`. -/
def isoDate (d : PyDate) : String :=
  pad4 d.year ++ "-" ++ pad2 d.month ++ "-" ++ pad2 d.day

/-- Python `repr` of a string (quote choice and the escapes relevant to
this script; other characters are kept as-is). -/
def pyReprStr (s : String) : String :=
  let useDouble := s.data.contains '\'' && !(s.data.contains '"')
  let q : Char := if useDouble then '"' else '\''
  let esc := s.data.foldr (fun c acc =>
    if c = '\\' then '\\' :: '\\' :: acc
    else if c = q then '\\' :: q :: acc
    else if c = '\n' then '\\' :: 'n' :: acc
    else if c = '\t' then '\\' :: 't' :: acc
    else if c = '\r' then '\\' :: 'r' :: acc
    else c :: acc) []
  String.mk (q :: (esc ++ [q]))

/-- Python `str(v)` for the cell values of this script. -/
def pyStr : Value → String
  | Value.none => "None"
  | Value.bool b => if b then "True" else "False"
  | Value.int n => toString n
  | Value.float r _ => r
  | Value.str s => s
  | Value.list xs => "[" ++ pyJoin ", " (xs.map pyReprStr) ++ "]"
  | Value.date d => isoDate d
  | Value.datetime d hh mm ss => isoDate d ++ " " ++ pad2 hh ++ ":" ++ pad2 mm ++ ":" ++ pad2 ss

/-- Python `repr(v)` (used by the `{raw!r}` f-string in `slug_id`). -/
def pyRepr : Value → String
  | Value.none => "None"
  | Value.bool b => if b then "True" else "False"
  | Value.int n => toString n
  | Value.float r _ => r
  | Value.str s => pyReprStr s
  | Value.list xs => "[" ++ pyJoin ", " (xs.map pyReprStr) ++ "]"
  | Value.date d =>
      "datetime.date(" ++ toString d.year ++ ", " ++ toString d.month ++ ", " ++
        toString d.day ++ ")"
  | Value.datetime d hh mm ss =>
      "datetime.datetime(" ++ toString d.year ++ ", " ++ toString d.month ++ ", " ++
        toString d.day ++ ", " ++ toString hh ++ ", " ++ toString mm ++
        (if ss = 0 then "" else ", " ++ toString ss) ++ ")"

/-- Python truthiness (`if v:`) for cell values. A non-integer float is
always nonzero, hence truthy. -/
def pyTruthy : Value → Bool
  | Value.none => false
  | Value.bool b => b
  | Value.int n => n != 0
  | Value.float _ i => match i with | some n => n != 0 | Option.none => true
  | Value.str s => s != ""
  | Value.list xs => !xs.isEmpty
  | Value.date _ => true
  | Value.datetime _ _ _ _ => true

/-- `re.sub(r"\.0$", "", s)`: drop one trailing literal `".0"`.
(The anchored pattern has at most one match; `s` is already stripped at the
call site, so the before-final-newline alternative of `$` cannot fire.) -/
def stripDotZero (s : String) : String :=
  match s.data.reverse with
  | '0' :: '.' :: rest => String.mk rest.reverse
  | _ => s

/-- Numeric value of a digit string (`int("042") = 42`). -/
def digitsToNat (l : List Char) : Nat :=
  l.foldl (fun a c => a * 10 + (c.toNat - '0'.toNat)) 0

/-- `slug_id(raw, width)` of the script: stringify, strip, drop a trailing
`".0"`, keep digits only, fail on empty, zero-pad. -/
def slug_id (raw : Value) (width : Nat := 5) : Except PyErr String :=
  if raw = Value.none then Except.error (PyErr.valueError "Missing id")
  else
    let s1 := pyStrip (pyStr raw)
    let s2 := stripDotZero s1
    let s3 := String.mk (s2.data.filter Char.isDigit)
    if s3 = "" then Except.error (PyErr.valueError ("Invalid id value: " ++ pyRepr raw))
    else Except.ok (zfill s3 width)

/-- Gregorian leap year (as `calendar.isleap` / `datetime`). -/
def isLeap (y : Nat) : Bool :=
  y % 4 == 0 && (y % 100 != 0 || y % 400 == 0)

/-- Days in a month, as validated by `datetime.date`. -/
def daysInMonth (y m : Nat) : Nat :=
  if m = 2 then (if isLeap y then 29 else 28)
  else if m = 4 ∨ m = 6 ∨ m = 9 ∨ m = 11 then 30
  else 31

/-- The components `(y, m, d)` are accepted by `datetime.date(y, m, d)`. -/
def isValidYMD (y m d : Nat) : Prop :=
  (1 ≤ y ∧ y ≤ 9999) ∧ (1 ≤ m ∧ m ≤ 12) ∧ (1 ≤ d ∧ d ≤ daysInMonth y m)

instance (y m d : Nat) : Decidable (isValidYMD y m d) := by
  unfold isValidYMD; infer_instance

/-- `re.match(r"^(\d{4})-(\d{1,2})-(\d{1,2})$", s)`, returning the three
numeric groups.  Since each digit group is delimited by a non-digit (`-` or
end of string), greedy matching coincides with taking maximal digit runs. -/
def matchLooseDate (s : String) : Option (Nat × Nat × Nat) :=
  let cs := s.data
  let ys := cs.takeWhile Char.isDigit
  let r1 := cs.dropWhile Char.isDigit
  if ys.length = 4 then
    match r1 with
    | '-' :: r2 =>
      let ms := r2.takeWhile Char.isDigit
      let r3 := r2.dropWhile Char.isDigit
      if ms.length = 1 ∨ ms.length = 2 then
        match r3 with
        | '-' :: r4 =>
          let ds := r4.takeWhile Char.isDigit
          let r5 := r4.dropWhile Char.isDigit
          if (ds.length = 1 ∨ ds.length = 2) ∧ r5 = [] then
            some (digitsToNat ys, digitsToNat ms, digitsToNat ds)
          else Option.none
        | _ => Option.none
      else Option.none
    | _ => Option.none
  else Option.none

/-- `parse_date(raw)` of the script.  `datetime.date(y, mo, d)` raises
`ValueError` when a component is out of range (year first, then month,
then day, as CPython checks them). -/
def parse_date (raw : Value) : Except PyErr (Option String) :=
  if raw = Value.none ∨ pyStrip (pyStr raw) = "" then Except.ok Option.none
  else
    match raw with
    | Value.datetime d _ _ _ => Except.ok (some (isoDate d))
    | Value.date d => Except.ok (some (isoDate d))
    | _ =>
      let s := pyStrip (pyStr raw)
      match matchLooseDate s with
      | some (y, mo, dd) =>
        if 1 ≤ y ∧ y ≤ 9999 then
          if 1 ≤ mo ∧ mo ≤ 12 then
            if 1 ≤ dd ∧ dd ≤ daysInMonth y mo then
              Except.ok (some (isoDate ⟨y, mo, dd⟩))
            else Except.error (PyErr.valueError "day is out of range for month")
          else Except.error (PyErr.valueError "month must be in 1..12")
        else Except.error (PyErr.valueError ("year " ++ toString y ++ " is out of range"))
      | Option.none => Except.ok (some s)

/-- Python `s.split(sep)` for a nonempty separator, at the char-list level
(an empty separator is a `ValueError` in Python and never occurs here).
The `fuel` argument makes the recursion structural; every recursive call
consumes at least one list element, so any `fuel ≥ l.length` gives the
same result and the fuel-exhausted branch is unreachable from `pySplitOn`. -/
def pySplitList (sep : List Char) : Nat → List Char → List (List Char)
  | _, [] => [[]]
  | 0, l => [l]
  | fuel + 1, c :: rest =>
    if sep.isPrefixOf (c :: rest) && !sep.isEmpty then
      [] :: pySplitList sep fuel (List.drop (sep.length - 1) rest)
    else
      match pySplitList sep fuel rest with
      | [] => [[c]]
      | piece :: pieces => (c :: piece) :: pieces

/-- Python `s.split(sep)` on strings. -/
def pySplitOn (s sep : String) : List String :=
  (pySplitList sep.data s.data.length s.data).map String.mk

/-- Python `s.replace(pat, rep)` (leftmost, non-overlapping; the script
only uses nonempty patterns).  Fuel as in `pySplitList`. -/
def pyReplaceList (pat rep : List Char) : Nat → List Char → List Char
  | _, [] => []
  | 0, l => l
  | fuel + 1, c :: rest =>
    if pat.isPrefixOf (c :: rest) && !pat.isEmpty then
      rep ++ pyReplaceList pat rep fuel (List.drop (pat.length - 1) rest)
    else
      c :: pyReplaceList pat rep fuel rest

/-- Python `s.replace(pat, rep)` on strings. -/
def pyReplace (s pat rep : String) : String :=
  String.mk (pyReplaceList pat.data rep.data s.data.length s.data)

/-- `parse_list(raw, sep)` of the script. -/
def parse_list (raw : Value) (sep : String) : List String :=
  if raw = Value.none then []
  else
    let s := pyStrip (pyStr raw)
    if s = "" then []
    else (pySplitOn s sep).filterMap (fun item =>
      let t := pyStrip item
      if t = "" then Option.none else some t)

/-- `yaml_quote(s)` of the script. -/
def yaml_quote (s : String) : String :=
  "\"" ++ pyReplace (pyReplace s "\\" "\\\\") "\"" "\\\"" ++ "\""

/-- `to_yaml_value(v)` of the script. -/
def to_yaml_value : Value → String
  | Value.bool b => if b then "true" else "false"
  | Value.none => "null"
  | Value.int n => toString n
  | Value.float r i => match i with | some n => toString n | Option.none => r
  | Value.list xs =>
    if xs.isEmpty then "[]"
    else "[" ++ pyJoin ", " (xs.map yaml_quote) ++ "]"
  | Value.str s => yaml_quote s
  | Value.date d => yaml_quote (pyStr (Value.date d))
  | Value.datetime d hh mm ss => yaml_quote (pyStr (Value.datetime d hh mm ss))

/-- `build_front_matter(fields)` of the script: `---`, one `key: value`
line per non-`None` field, `---`, joined by newlines plus a final newline. -/
def build_front_matter (fields : List (String × Value)) : String :=
  pyJoin "\n"
    ("---" :: ((fields.filterMap (fun kv =>
      if kv.2 = Value.none then Option.none
      else some (kv.1 ++ ": " ++ to_yaml_value kv.2))) ++ ["---"])) ++ "\n"

/-- The command-line arguments of `main` that affect row processing, with
the `argparse` defaults of the script. -/
structure Args where
  idCol : String := "id"
  titleCol : String := "title"
  dateCol : String := "date"
  tagsCol : String := "tags"
  attachmentsCol : String := "attachments"
  notesCol : String := "notes"
  layout : String := "theme"
  permalink : String := ""
  assetsBase : String := "/assets/works"
  outputDir : String := "works"
  write : Bool := false
  force : Bool := false
deriving DecidableEq

/-- The header strings of row 1: `str(h).strip() if h is not None else ""`. -/
def headersOf (row0 : List Value) : List String :=
  row0.map (fun h => if h = Value.none then "" else pyStrip (pyStr h))

/-- `{h: i for i, h in enumerate(headers) if h}.get(name)`: the last index
whose (nonempty) header equals `name`. -/
def header_index_from (k : Nat) (name : String) : List String → Option Nat
  | [] => Option.none
  | h :: t =>
    match header_index_from (k + 1) name t with
    | some j => some j
    | Option.none => if h = name ∧ h ≠ "" then some k else Option.none

/-- The `header_index` dict lookup of the script. -/
def header_index (headers : List String) (name : String) : Option Nat :=
  header_index_from 0 name headers

/-- The nested helper `cell(row, col_name)` of `main`:
`None if i is None or i >= len(row) else row[i]`. -/
def cell (headers : List String) (r : List Value) (name : String) : Value :=
  match header_index headers name with
  | Option.none => Value.none
  | some i => if r.length ≤ i then Value.none else r.getD i Value.none

/-- Python `x or default` for the optional string produced by `parse_date`. -/
def pyOrStr (o : Option String) (d : String) : String :=
  match o with
  | Option.none => d
  | some s => if s = "" then d else s

/-- Attachment URL: `f"{args.assets_base}/{wid}/files/{fname}"`. -/
def attachmentUrl (args : Args) (wid fname : String) : String :=
  args.assetsBase ++ "/" ++ wid ++ "/files/" ++ fname

/-- One supplements line: `f"- [{fname}]({url})"` with
`fname = url.split("/")[-1]`. -/
def supplementLine (url : String) : String :=
  "- [" ++ (pySplitOn url "/").getLastD "" ++ "](" ++ url ++ ")"

/-- The two `parse_date` calls of one loop iteration, in program order
(`date` column, then `catalogue_date` column); either may raise. -/
def rowDates (args : Args) (headers : List String) (r : List Value) :
    Except PyErr (Option String × Option String) :=
  match parse_date (cell headers r args.dateCol) with
  | Except.error e => Except.error e
  | Except.ok d0 =>
    match parse_date (cell headers r "catalogue_date") with
    | Except.error e => Except.error e
    | Except.ok cd => Except.ok (d0, cd)

/-- The front-matter dict literal `fm` of `main` (in insertion order),
given the two already-parsed dates. -/
def rowFieldsList (args : Args) (headers : List String) (today : String)
    (r : List Value) (wid title : String) (d0 cd : Option String) :
    List (String × Value) :=
  let date_val := pyOrStr d0 today
  let layoutCell := cell headers r "layout"
  let series := cell headers r "series"
  let medium := cell headers r "medium"
  let dimensions := cell headers r "dimensions"
  let primary := cell headers r "primary"
  let thumb := cell headers r "thumb"
  let tags := parse_list (cell headers r args.tagsCol) ","
  [("title", Value.str title),
   ("date", Value.str date_val),
   ("layout", Value.str (if pyTruthy layoutCell then pyStrip (pyStr layoutCell)
                         else args.layout)),
   ("work_id", Value.str wid),
   ("catalogue_date", match cd with
                      | some s => Value.str s
                      | Option.none => Value.none),
   ("series", if pyTruthy series then Value.str (pyStrip (pyStr series))
              else Value.none),
   ("medium", if pyTruthy medium then Value.str (pyStrip (pyStr medium))
              else Value.none),
   ("dimensions", if pyTruthy dimensions then Value.str (pyStrip (pyStr dimensions))
                  else Value.none),
   ("primary", if pyTruthy primary then Value.str (pyStrip (pyStr primary))
               else Value.none),
   ("thumb", if pyTruthy thumb then Value.str (pyStrip (pyStr thumb))
             else Value.none),
   ("tags", if tags.isEmpty then Value.none else Value.list tags)] ++
  (if args.permalink = "" then []
   else [("permalink", Value.str (pyReplace args.permalink "{id}" wid))])

/-- The front-matter field map `fm` built by `main` for one row (in dict
insertion order), after the two `parse_date` calls, which may raise. -/
def rowFields (args : Args) (headers : List String) (today : String) (r : List Value)
    (wid title : String) : Except PyErr (List (String × Value)) :=
  match rowDates args headers r with
  | Except.error e => Except.error e
  | Except.ok (d0, cd) =>
    Except.ok (rowFieldsList args headers today r wid title d0 cd)

/-- The `body_lines` list built by `main` for one row: optional notes block
followed by the optional `## Supplements` block. -/
def rowBody (args : Args) (headers : List String) (r : List Value) (wid : String) :
    List String :=
  let notes := cell headers r args.notesCol
  let urls := (parse_list (cell headers r args.attachmentsCol) ";").map (attachmentUrl args wid)
  (if pyTruthy notes && !(pyStrip (pyStr notes) == "") then [pyStrip (pyStr notes), ""]
   else []) ++
  (if urls.isEmpty then []
   else "## Supplements" :: (urls.map supplementLine ++ [""]))

/-- One iteration of the row loop of `main`, up to the point where the file
content is known: `none` when the row is skipped for a missing id or a
missing/blank title, otherwise the pair of the normalized id and the full
file content `build_front_matter(fm) + "\n".join(body_lines).rstrip() + "\n"`. -/
def renderRow (args : Args) (headers : List String) (today : String) (r : List Value) :
    Except PyErr (Option (String × String)) :=
  let raw_id := cell headers r args.idCol
  let raw_title := cell headers r args.titleCol
  if raw_id = Value.none ∨ raw_title = Value.none ∨ pyStrip (pyStr raw_title) = "" then
    Except.ok Option.none
  else
    match slug_id raw_id 5 with
    | Except.error e => Except.error e
    | Except.ok wid =>
      match rowFields args headers today r wid (pyStrip (pyStr raw_title)) with
      | Except.error e => Except.error e
      | Except.ok fields =>
        Except.ok (some (wid,
          build_front_matter fields ++
            pyRstrip (pyJoin "\n" (rowBody args headers r wid)) ++ "\n"))

/-- The number of newline characters at the very end of a string; the
property "ends with exactly one trailing newline" is `trailingNewlines = 1`. -/
def trailingNewlines (s : String) : Nat :=
  (s.data.reverse.takeWhile (fun c => c == '\n')).length

/-- The mutable state of the row loop: the output files on disk (path to
content), the two counters, and the lines printed so far. -/
structure RunState where
  fs : List (String × String)
  written : Nat
  skipped : Nat
  log : List String
deriving DecidableEq

/-- Look a path up in the modelled file system. -/
def fsGet (fs : List (String × String)) (p : String) : Option String :=
  fs.lookup p

/-- `Path.write_text`: create or overwrite one file. -/
def fsWrite (fs : List (String × String)) (p c : String) : List (String × String) :=
  (p, c) :: fs.filter (fun kv => kv.1 ≠ p)

/-- The skip-if-exists / write / dry-run policy applied by `main` once a
row has been rendered (lines 254-272 of the script).  Every branch
returns normally, so this part is total. -/
def applyWritePolicy (args : Args) (st : RunState) (wid content : String) :
    RunState :=
  let out_path := args.outputDir ++ "/" ++ wid ++ ".md"
  let ex := (fsGet st.fs out_path).isSome
  if ex && !args.force then
    { st with skipped := st.skipped + 1,
              log := st.log ++ ["SKIP (exists): " ++ out_path] }
  else if args.write then
    { st with fs := fsWrite st.fs out_path content,
              written := st.written + 1,
              log := st.log ++ ["WRITE: " ++ out_path] }
  else
    { st with written := st.written + 1,
              log := st.log ++ ["DRY-RUN: would write " ++ out_path ++
                " (overwrite=" ++ (if ex then "True" else "False") ++ ")"] }

/-- One full iteration of the row loop of `main`: render the row, then apply
the skip-if-exists / write / dry-run policy. -/
def processRow (args : Args) (headers : List String) (today : String)
    (st : RunState) (r : List Value) : Except PyErr RunState :=
  match renderRow args headers today r with
  | Except.error e => Except.error e
  | Except.ok Option.none => Except.ok { st with skipped := st.skipped + 1 }
  | Except.ok (some (wid, content)) =>
    Except.ok (applyWritePolicy args st wid content)

/-- The row loop of `main` over the data rows.  An uncaught exception stops
the run; the final state (hence the file system) at that moment is returned
together with the error. -/
def runRows (args : Args) (headers : List String) (today : String) :
    RunState → List (List Value) → RunState × Option PyErr
  | st, [] => (st, Option.none)
  | st, r :: rs =>
    match processRow args headers today st r with
    | Except.ok st' => runRows args headers today st' rs
    | Except.error e => (st, some e)

/-! ### Helper lemmas -/

lemma strMk_eq_empty {l : List Char} : String.mk l = "" ↔ l = [] := by
  constructor
  · intro h
    have := congrArg String.data h
    simpa using this
  · intro h
    subst h
    rfl

lemma dropWhile_eq_self_of_all {p : Char → Bool} {l : List Char}
    (h : ∀ c ∈ l, p c = false) : l.dropWhile p = l := by
  cases l with
  | nil => rfl
  | cons c t =>
    have hc := h c (List.mem_cons_self c t)
    simp [List.dropWhile_cons, hc]

lemma mem_dropWhile_of_not {p : Char → Bool} {a : Char} (ha : p a = false) :
    ∀ {l : List Char}, a ∈ l → a ∈ l.dropWhile p := by
  intro l
  induction l with
  | nil => intro h; exact absurd h (List.not_mem_nil a)
  | cons c t ih =>
    intro h
    rw [List.dropWhile_cons]
    by_cases hc : p c = true
    · rw [if_pos hc]
      rcases List.mem_cons.mp h with h1 | h1
      · subst h1
        rw [ha] at hc
        exact absurd hc (by decide)
      · exact ih h1
    · rw [if_neg hc]
      exact h

lemma dropWhile_head_false {p : Char → Bool} : ∀ {l t : List Char} {c : Char},
    l.dropWhile p = c :: t → p c = false := by
  intro l
  induction l with
  | nil => intro t c h; exact absurd h (by simp [List.dropWhile])
  | cons x xs ih =>
    intro t c h
    rw [List.dropWhile_cons] at h
    by_cases hx : p x = true
    · rw [if_pos hx] at h
      exact ih h
    · rw [if_neg hx] at h
      injection h with h1 _
      subst h1
      cases h2 : p x with
      | false => rfl
      | true => exact absurd h2 hx

lemma isPySpace_false_of_isDigit (c : Char) (h : c.isDigit = true) :
    isPySpace c = false := by
  by_contra hx
  rw [Bool.not_eq_false] at hx
  unfold isPySpace at hx
  simp only [Bool.or_eq_true, beq_iff_eq] at hx
  rcases hx with (((((h1 | h1) | h1) | h1) | h1) | h1) <;> subst h1 <;>
    exact absurd h (by decide)

lemma pyStrip_eq_self {s : String} (h : ∀ c ∈ s.data, isPySpace c = false) :
    pyStrip s = s := by
  unfold pyStrip
  rw [dropWhile_eq_self_of_all h,
    dropWhile_eq_self_of_all (fun c hc => h c (List.mem_reverse.mp hc)),
    List.reverse_reverse]

lemma pyStrip_ne_empty {s : String} {c : Char} (hc : c ∈ s.data)
    (hcs : isPySpace c = false) : pyStrip s ≠ "" := by
  intro h
  unfold pyStrip at h
  rw [strMk_eq_empty, List.reverse_eq_nil_iff] at h
  have h1 : c ∈ (s.data.dropWhile isPySpace).reverse :=
    List.mem_reverse.mpr (mem_dropWhile_of_not hcs hc)
  have h2 := mem_dropWhile_of_not hcs h1
  rw [h] at h2
  exact absurd h2 (List.not_mem_nil c)

lemma zfill_of_le {s : String} {w : Nat} (h : w ≤ s.length) : zfill s w = s := by
  unfold zfill
  rw [if_pos h]

lemma zfill_data_of_no_sign {s : String} {w : Nat} (hw : ¬ w ≤ s.length)
    (h0 : ∀ c t, s.data = c :: t → ¬(c = '+' ∨ c = '-')) :
    zfill s w = String.mk (List.replicate (w - s.length) '0' ++ s.data) := by
  unfold zfill
  rw [if_neg hw]
  split
  · next heq =>
    rw [heq]
    simp
  · next c rest heq =>
    rw [if_neg (h0 c rest heq), heq]

lemma zfill_digits {l : List Char} (w : Nat) (hl : l ≠ [])
    (hd : ∀ c ∈ l, c.isDigit = true) :
    (∀ c ∈ (zfill (String.mk l) w).data, c.isDigit = true) ∧
      w ≤ (zfill (String.mk l) w).length ∧ zfill (String.mk l) w ≠ "" := by
  by_cases hw : w ≤ (String.mk l).length
  · rw [zfill_of_le hw]
    exact ⟨hd, hw, fun hh => hl (strMk_eq_empty.mp hh)⟩
  · have hw' : ¬ w ≤ l.length := hw
    have hsign : ∀ c t, (String.mk l).data = c :: t → ¬(c = '+' ∨ c = '-') := by
      intro c t hct hor
      have hc : c ∈ l := by
        have hct' : l = c :: t := hct
        rw [hct']
        exact List.mem_cons_self c t
      have hcd := hd c hc
      rcases hor with h1 | h1 <;> subst h1 <;> exact absurd hcd (by decide)
    rw [zfill_data_of_no_sign hw hsign]
    show (∀ c ∈ (String.mk (List.replicate (w - l.length) '0' ++ l)).data,
        c.isDigit = true) ∧
      w ≤ (String.mk (List.replicate (w - l.length) '0' ++ l)).length ∧
      String.mk (List.replicate (w - l.length) '0' ++ l) ≠ ""
    refine ⟨?_, ?_, ?_⟩
    · intro x hx
      rcases List.mem_append.mp hx with h1 | h1
      · rw [List.eq_of_mem_replicate h1]; decide
      · exact hd x h1
    · show w ≤ (List.replicate (w - l.length) '0' ++ l).length
      rw [List.length_append, List.length_replicate]
      omega
    · intro hh
      rcases List.append_eq_nil.mp (strMk_eq_empty.mp hh) with ⟨-, h2⟩
      exact hl h2

lemma stripDotZero_eq_self {s : String} (h : ∀ c ∈ s.data, c.isDigit = true) :
    stripDotZero s = s := by
  unfold stripDotZero
  split
  · next rest heq =>
    have hdot : ('.' : Char) ∈ s.data := by
      rw [← List.mem_reverse, heq]
      simp
    exact absurd (h '.' hdot) (by decide)
  · rfl

lemma slug_id_ok_inv {raw : Value} {w : Nat} {s : String}
    (h : slug_id raw w = Except.ok s) :
    raw ≠ Value.none ∧
      ∃ ds, (stripDotZero (pyStrip (pyStr raw))).data.filter Char.isDigit = ds ∧
        ds ≠ [] ∧ s = zfill (String.mk ds) w := by
  simp only [slug_id] at h
  by_cases h0 : raw = Value.none
  · rw [if_pos h0] at h
    exact absurd h (by intro hh; exact Except.noConfusion hh)
  · rw [if_neg h0] at h
    by_cases h1 : String.mk
        ((stripDotZero (pyStrip (pyStr raw))).data.filter Char.isDigit) = ""
    · rw [if_pos h1] at h
      exact absurd h (by intro hh; exact Except.noConfusion hh)
    · rw [if_neg h1] at h
      injection h with h2
      exact ⟨h0, _, rfl, fun hh => h1 (by rw [hh]), h2.symm⟩

lemma slug_id_ok_digits {raw : Value} {w : Nat} {s : String}
    (h : slug_id raw w = Except.ok s) :
    (∀ c ∈ s.data, c.isDigit = true) ∧ w ≤ s.length ∧ s ≠ "" := by
  obtain ⟨h0, ds, hds, hne, hs⟩ := slug_id_ok_inv h
  subst hs
  exact zfill_digits w hne (fun c hc => List.of_mem_filter (hds ▸ hc))

lemma dash_mem_isoDate (d : PyDate) : ('-' : Char) ∈ (isoDate d).data := by
  unfold isoDate
  simp only [String.data_append]
  exact List.mem_append_left _ (List.mem_append_left _
    (List.mem_append_left _ (List.mem_append_right _ (by decide))))

lemma pyStr_date_nonblank (d : PyDate) :
    pyStrip (pyStr (Value.date d)) ≠ "" :=
  pyStrip_ne_empty (dash_mem_isoDate d) (by decide)

lemma pyStr_datetime_nonblank (d : PyDate) (hh mm ss : Nat) :
    pyStrip (pyStr (Value.datetime d hh mm ss)) ≠ "" := by
  apply pyStrip_ne_empty (c := '-')
  · show ('-' : Char) ∈ (isoDate d ++ " " ++ pad2 hh ++ ":" ++ pad2 mm ++ ":" ++
      pad2 ss).data
    simp only [String.data_append]
    exact List.mem_append_left _ (List.mem_append_left _ (List.mem_append_left _
      (List.mem_append_left _ (List.mem_append_left _
        (List.mem_append_left _ (dash_mem_isoDate d))))))
  · decide

lemma matchLooseDate_some_ne_empty {t : String} {x : Nat × Nat × Nat}
    (h : matchLooseDate t = some x) : t ≠ "" := by
  intro ht
  subst ht
  have h0 : matchLooseDate "" = Option.none := rfl
  rw [h0] at h
  exact Option.noConfusion h

lemma parse_date_str (s : String) (hne : pyStrip s ≠ "") :
    parse_date (Value.str s) =
      (match matchLooseDate (pyStrip s) with
       | some (y, mo, dd) =>
         if 1 ≤ y ∧ y ≤ 9999 then
           if 1 ≤ mo ∧ mo ≤ 12 then
             if 1 ≤ dd ∧ dd ≤ daysInMonth y mo then
               Except.ok (some (isoDate ⟨y, mo, dd⟩))
             else Except.error (PyErr.valueError "day is out of range for month")
           else Except.error (PyErr.valueError "month must be in 1..12")
         else Except.error (PyErr.valueError ("year " ++ toString y ++
           " is out of range"))
       | Option.none => Except.ok (some (pyStrip s))) := by
  simp only [parse_date]
  rw [if_neg ?_]
  · rfl
  · rintro (hc | hc)
    · exact Value.noConfusion hc
    · exact hne hc

lemma parse_date_str_some {s : String} {y mo dd : Nat}
    (hm : matchLooseDate (pyStrip s) = some (y, mo, dd)) :
    parse_date (Value.str s) =
      (if 1 ≤ y ∧ y ≤ 9999 then
        if 1 ≤ mo ∧ mo ≤ 12 then
          if 1 ≤ dd ∧ dd ≤ daysInMonth y mo then
            Except.ok (some (isoDate ⟨y, mo, dd⟩))
          else Except.error (PyErr.valueError "day is out of range for month")
        else Except.error (PyErr.valueError "month must be in 1..12")
      else Except.error (PyErr.valueError ("year " ++ toString y ++
        " is out of range"))) := by
  rw [parse_date_str s (matchLooseDate_some_ne_empty hm), hm]

lemma parse_date_str_none {s : String} (hne : pyStrip s ≠ "")
    (hm : matchLooseDate (pyStrip s) = Option.none) :
    parse_date (Value.str s) = Except.ok (some (pyStrip s)) := by
  rw [parse_date_str s hne, hm]

/-! ### Claims about the field normalizer -/

/-- Claim C1: `normalize_id` (`slug_id`) converts the raw value to a string,
strips a trailing literal `".0"` suffix, removes every non-digit character,
and zero-pads the result to the requested width, failing with the
`InvalidIdentifier` error (`ValueError`) when no digits remain; in
particular `slug_id "361.0" = "00361"`, `slug_id 361 = "00361"`, and
`slug_id "abc"` fails.  The last conjunct records that every successful
result is a digit string of at least the requested width. -/
theorem C1_normalize_id (raw : Value) (w : Nat) (hraw : raw ≠ Value.none) :
    slug_id (Value.str "361.0") 5 = Except.ok "00361" ∧
    slug_id (Value.int 361) 5 = Except.ok "00361" ∧
    slug_id (Value.str "abc") 5 =
      Except.error (PyErr.valueError "Invalid id value: 'abc'") ∧
    ((stripDotZero (pyStrip (pyStr raw))).data.filter Char.isDigit = [] →
      slug_id raw w =
        Except.error (PyErr.valueError ("Invalid id value: " ++ pyRepr raw))) ∧
    (∀ ds, (stripDotZero (pyStrip (pyStr raw))).data.filter Char.isDigit = ds →
      ds ≠ [] → slug_id raw w = Except.ok (zfill (String.mk ds) w)) ∧
    (∀ s, slug_id raw w = Except.ok s →
      w ≤ s.length ∧ ∀ c ∈ s.data, c.isDigit = true) := by
  refine ⟨by decide, by decide, by decide, ?_, ?_, ?_⟩
  · intro hempty
    simp only [slug_id]
    rw [if_neg hraw]
    rw [if_pos (by rw [hempty])]
  · intro ds hds hne
    simp only [slug_id]
    rw [if_neg hraw, hds, if_neg (fun hh => hne (strMk_eq_empty.mp hh))]
  · intro s hs
    obtain ⟨a, b, -⟩ := slug_id_ok_digits hs
    exact ⟨b, a⟩

/-- Witness for C1 at the concrete input `"x42"` with width 5. -/
theorem C1_normalize_id_witness :
    slug_id (Value.str "x42") 5 =
      Except.ok (zfill (String.mk
        ((stripDotZero (pyStrip (pyStr (Value.str "x42")))).data.filter
          Char.isDigit)) 5) := by
  have h := C1_normalize_id (Value.str "x42") 5
    (by intro hh; exact Value.noConfusion hh)
  exact h.2.2.2.2.1 _ rfl (by decide)

/-- Claim C9: on every raw input it accepts, `normalize_id` is idempotent on
its own output (at the same width): if `slug_id raw w = ok s` then
`slug_id s w = ok s`.  (Acceptance coincides with the raw value containing a
digit that survives the `".0"`-stripping.) -/
theorem C9_normalize_id_idempotent (raw : Value) (w : Nat) (s : String)
    (h : slug_id raw w = Except.ok s) :
    slug_id (Value.str s) w = Except.ok s := by
  obtain ⟨hdig, hlen, hne⟩ := slug_id_ok_digits h
  have hns : ∀ c ∈ s.data, isPySpace c = false :=
    fun c hc => isPySpace_false_of_isDigit c (hdig c hc)
  simp only [slug_id]
  rw [if_neg (by intro hh; exact Value.noConfusion hh)]
  have e1 : pyStr (Value.str s) = s := rfl
  rw [e1, pyStrip_eq_self hns, stripDotZero_eq_self hdig,
    List.filter_eq_self.mpr hdig]
  have e2 : String.mk s.data = s := rfl
  rw [e2, if_neg hne, zfill_of_le hlen]

/-- Witness for C9: `slug_id "361.0" = ok "00361"` and re-normalizing
`"00361"` returns it unchanged. -/
theorem C9_normalize_id_idempotent_witness :
    slug_id (Value.str "00361") 5 = Except.ok "00361" :=
  C9_normalize_id_idempotent (Value.str "361.0") 5 "00361" (by decide)

/-- Counterexample to claim C2 as stated: a string that matches no date
form is NOT passed through unmodified — `parse_date` first strips
surrounding whitespace (`str(raw).strip()`), so
`parse_date " pass through "` returns `"pass through"`, not the original
string. -/
theorem C2_parse_date_counterexample :
    parse_date (Value.str " pass through ") = Except.ok (some "pass through") ∧
    parse_date (Value.str " pass through ") ≠
      Except.ok (some " pass through ") := by
  constructor
  · decide
  · decide

/-- Claim C2 (amended): `parse_date` returns absent for absent or blank
input; extracts the ISO calendar date from date/datetime values; for other
values it first strips surrounding whitespace, then reformats a loose
`YYYY-M-D` match as zero-padded ISO, failing with `InvalidDate`
(`ValueError`) when the components are not a valid calendar date; every
other string is passed through stripped of surrounding whitespace but
otherwise unmodified. -/
theorem C2_parse_date_amended :
    parse_date (Value.str "2024-3-5") = Except.ok (some "2024-03-05") ∧
    parse_date (Value.str "") = Except.ok Option.none ∧
    parse_date (Value.str "not a date") = Except.ok (some "not a date") ∧
    (∀ raw : Value, raw = Value.none ∨ pyStrip (pyStr raw) = "" →
      parse_date raw = Except.ok Option.none) ∧
    (∀ (d : PyDate) (hh mm ss : Nat),
      parse_date (Value.datetime d hh mm ss) = Except.ok (some (isoDate d))) ∧
    (∀ d : PyDate, parse_date (Value.date d) = Except.ok (some (isoDate d))) ∧
    (∀ (s : String) (y mo dd : Nat),
      matchLooseDate (pyStrip s) = some (y, mo, dd) → isValidYMD y mo dd →
      parse_date (Value.str s) = Except.ok (some (isoDate ⟨y, mo, dd⟩))) ∧
    (∀ (s : String) (y mo dd : Nat),
      matchLooseDate (pyStrip s) = some (y, mo, dd) → ¬ isValidYMD y mo dd →
      ∃ e, parse_date (Value.str s) = Except.error e) ∧
    (∀ s : String, pyStrip s ≠ "" → matchLooseDate (pyStrip s) = Option.none →
      parse_date (Value.str s) = Except.ok (some (pyStrip s))) := by
  refine ⟨by decide, by decide, by decide, ?_, ?_, ?_, ?_, ?_, ?_⟩
  · intro raw h
    simp only [parse_date]
    rw [if_pos h]
  · intro d hh mm ss
    simp only [parse_date]
    rw [if_neg ?_]
    · rintro (hc | hc)
      · exact Value.noConfusion hc
      · exact pyStr_datetime_nonblank d hh mm ss hc
  · intro d
    simp only [parse_date]
    rw [if_neg ?_]
    · rintro (hc | hc)
      · exact Value.noConfusion hc
      · exact pyStr_date_nonblank d hc
  · intro s y mo dd hm hv
    rw [parse_date_str_some hm]
    obtain ⟨hy, hmo, hdd⟩ := hv
    rw [if_pos hy, if_pos hmo, if_pos hdd]
  · intro s y mo dd hm hv
    rw [parse_date_str_some hm]
    by_cases hy : 1 ≤ y ∧ y ≤ 9999
    · by_cases hmo : 1 ≤ mo ∧ mo ≤ 12
      · by_cases hdd : 1 ≤ dd ∧ dd ≤ daysInMonth y mo
        · exact absurd ⟨hy, hmo, hdd⟩ hv
        · exact ⟨_, by rw [if_pos hy, if_pos hmo, if_neg hdd]⟩
      · exact ⟨_, by rw [if_pos hy, if_neg hmo]⟩
    · exact ⟨_, by rw [if_neg hy]⟩
  · intro s hne hm
    exact parse_date_str_none hne hm

/-- Witness for C2 at concrete inputs: a padded loose date is normalized,
and a blank cell is absent. -/
theorem C2_parse_date_amended_witness :
    parse_date (Value.str " 1999-1-2 ") =
      Except.ok (some (isoDate ⟨1999, 1, 2⟩)) ∧
    parse_date (Value.str "   ") = Except.ok Option.none := by
  constructor
  · exact C2_parse_date_amended.2.2.2.2.2.2.1 " 1999-1-2 " 1999 1 2
      (by decide) (by decide)
  · exact C2_parse_date_amended.2.2.2.1 (Value.str "   ") (Or.inr (by decide))

/-- Counterexample to claim C3 as stated: an integer is not rendered as a
double-quoted string — the code renders `5` as the bare decimal `5`, while
the claim's catch-all ("every other value as a double-quoted string")
predicts `"5"`. -/
theorem C3_serialize_scalar_counterexample :
    to_yaml_value (Value.int 5) = "5" ∧
    to_yaml_value (Value.int 5) ≠ "\"5\"" := by
  constructor
  · rfl
  · decide

/-- Claim C3 (amended): `serialize_scalar` (`to_yaml_value`) renders
booleans as literal `true`/`false`, absent as literal `null`,
integer-valued floats without a fractional part, integers and non-integer
floats in default decimal form (unquoted), non-empty sequences as a
bracketed comma-separated list of individually double-quoted elements,
empty sequences as `[]`, and every other value as a double-quoted string
in which backslash is escaped to double-backslash and double-quote to
escaped-quote. -/
theorem C3_serialize_scalar_amended (b : Bool) (n : Int) (r : String)
    (xs : List String) (hxs : xs ≠ []) (s : String) :
    to_yaml_value (Value.bool b) = (if b then "true" else "false") ∧
    to_yaml_value Value.none = "null" ∧
    to_yaml_value (Value.float "361.0" (some 361)) = "361" ∧
    to_yaml_value (Value.float r (some n)) = toString n ∧
    to_yaml_value (Value.int n) = toString n ∧
    to_yaml_value (Value.float r Option.none) = r ∧
    to_yaml_value (Value.list ["a", "b"]) = "[\"a\", \"b\"]" ∧
    to_yaml_value (Value.list []) = "[]" ∧
    to_yaml_value (Value.list xs) = "[" ++ pyJoin ", " (xs.map yaml_quote) ++ "]" ∧
    to_yaml_value (Value.str s) =
      "\"" ++ pyReplace (pyReplace s "\\" "\\\\") "\"" "\\\"" ++ "\"" ∧
    to_yaml_value (Value.str "He said \"hi\"") = "\"He said \\\"hi\\\"\"" := by
  refine ⟨rfl, rfl, by decide, rfl, rfl, rfl, by decide, rfl, ?_, rfl, by decide⟩
  cases xs with
  | nil => exact absurd rfl hxs
  | cons x t => rfl

/-- Witness for C3 at a concrete non-empty list. -/
theorem C3_serialize_scalar_amended_witness :
    to_yaml_value (Value.list ["x"]) =
      "[" ++ pyJoin ", " (["x"].map yaml_quote) ++ "]" :=
  (C3_serialize_scalar_amended true 0 "" ["x"] (by decide) "").2.2.2.2.2.2.2.2.1

/-! ### Claims about the document builder and writer -/

lemma header_index_from_none {name : String} : ∀ {hs : List String} {k : Nat},
    header_index_from k name hs = Option.none ↔ ¬(name ≠ "" ∧ name ∈ hs) := by
  intro hs
  induction hs with
  | nil =>
    intro k
    simp [header_index_from]
  | cons h t ih =>
    intro k
    simp only [header_index_from]
    cases hrec : header_index_from (k + 1) name t with
    | some j =>
      have hmem : name ≠ "" ∧ name ∈ t := by
        by_contra hc
        rw [ih.mpr hc] at hrec
        exact Option.noConfusion hrec
      constructor
      · intro hh
        exact Option.noConfusion hh
      · intro hh
        exact absurd ⟨hmem.1, List.mem_cons_of_mem h hmem.2⟩ hh
    | none =>
      by_cases hcond : h = name ∧ h ≠ ""
      · rw [if_pos hcond]
        constructor
        · intro hh
          exact absurd hh (by intro hc; exact Option.noConfusion hc)
        · intro hh
          exact absurd ⟨by rw [← hcond.1]; exact hcond.2,
            by rw [← hcond.1]; exact List.mem_cons_self h t⟩ hh
      · rw [if_neg hcond]
        constructor
        · intro _ hc
          obtain ⟨hne, hmem⟩ := hc
          rcases List.mem_cons.mp hmem with h1 | h1
          · exact hcond ⟨h1.symm, by rw [h1] at hne; exact hne⟩
          · exact (ih.mp hrec) ⟨hne, h1⟩
        · intro _
          rfl

lemma header_index_none_iff {headers : List String} {name : String} :
    header_index headers name = Option.none ↔ ¬(name ≠ "" ∧ name ∈ headers) :=
  header_index_from_none

/-- Claim C10: the per-row cell lookup is total: for every row tuple and
column name it returns `None` when the name is not among the non-empty
header strings of row 1 or when the row is too short for that column's
index, and otherwise returns the cell at that index; being a total Lean
function, it can never fail with an out-of-bounds access. -/
theorem C10_cell_total (row0 : List Value) (r : List Value) (name : String) :
    (¬(name ≠ "" ∧ name ∈ headersOf row0) →
      cell (headersOf row0) r name = Value.none) ∧
    (∀ i, header_index (headersOf row0) name = some i → r.length ≤ i →
      cell (headersOf row0) r name = Value.none) ∧
    (∀ i (h : i < r.length), header_index (headersOf row0) name = some i →
      cell (headersOf row0) r name = r.get ⟨i, h⟩) := by
  refine ⟨?_, ?_, ?_⟩
  · intro h
    unfold cell
    rw [header_index_none_iff.mpr h]
  · intro i hi hlen
    unfold cell
    rw [hi]
    show (if r.length ≤ i then Value.none else r.getD i Value.none) = Value.none
    rw [if_pos hlen]
  · intro i h hi
    unfold cell
    rw [hi]
    show (if r.length ≤ i then Value.none else r.getD i Value.none) =
      r.get ⟨i, h⟩
    rw [if_neg (Nat.not_le.mpr h)]
    simp [List.getD, List.getElem?_eq_getElem h]

/-- Witness for C10: a header beyond the row's length yields `None`; a
header within the row yields the cell. -/
theorem C10_cell_total_witness :
    cell (headersOf [Value.str "id", Value.str "title"]) [Value.int 3] "title" =
      Value.none ∧
    cell (headersOf [Value.str "id"]) [Value.int 3] "id" = Value.int 3 := by
  constructor
  · exact (C10_cell_total [Value.str "id", Value.str "title"] [Value.int 3]
      "title").2.1 1 (by decide) (by decide)
  · exact ((C10_cell_total [Value.str "id"] [Value.int 3] "id").2.2 0
      (by decide) (by decide)).trans rfl

lemma processRow_dry_fs {args : Args} {headers : List String} {today : String}
    {st st' : RunState} {r : List Value} (hw : args.write = false)
    (h : processRow args headers today st r = Except.ok st') : st'.fs = st.fs := by
  simp only [processRow] at h
  cases hre : renderRow args headers today r with
  | error e =>
    rw [hre] at h
    exact absurd h (by intro hh; exact Except.noConfusion hh)
  | ok o =>
    rw [hre] at h
    cases o with
    | none =>
      injection h with h1
      rw [← h1]
    | some p =>
      obtain ⟨wid, content⟩ := p
      injection h with h1
      rw [← h1]
      unfold applyWritePolicy
      by_cases hex : ((fsGet st.fs (args.outputDir ++ "/" ++ wid ++ ".md")).isSome
          && !args.force) = true
      · rw [if_pos hex]
      · rw [if_neg hex, hw, if_neg Bool.false_ne_true]

/-- Claim C5: in dry-run mode (`--write` not passed) a run never creates,
modifies, or deletes any output file: the modelled file system after the
row loop — including a loop aborted by a raised error — is exactly the
initial one; the loop only logs intended actions and counts. -/
theorem C5_dry_run (args : Args) (headers : List String) (today : String)
    (st : RunState) (rows : List (List Value)) (hw : args.write = false) :
    ((runRows args headers today st rows).1).fs = st.fs := by
  induction rows generalizing st with
  | nil => rfl
  | cons r rs ih =>
    simp only [runRows]
    cases hp : processRow args headers today st r with
    | ok st' =>
      rw [ih st']
      exact processRow_dry_fs hw hp
    | error e => rfl

/-- Witness for C5 at a concrete dry run over one row: the file system is
untouched. -/
theorem C5_dry_run_witness :
    ((runRows ({} : Args) ["id", "title"] "2025-06-01"
      ⟨[("works/00001.md", "old")], 0, 0, []⟩
      [[Value.str "1", Value.str "A"]]).1).fs = [("works/00001.md", "old")] :=
  C5_dry_run ({} : Args) ["id", "title"] "2025-06-01"
    ⟨[("works/00001.md", "old")], 0, 0, []⟩ [[Value.str "1", Value.str "A"]] rfl

lemma renderRow_some_inv {args : Args} {headers : List String} {today : String}
    {r : List Value} {wid content : String}
    (h : renderRow args headers today r = Except.ok (some (wid, content))) :
    slug_id (cell headers r args.idCol) 5 = Except.ok wid ∧
    ∃ fields, rowFields args headers today r wid
        (pyStrip (pyStr (cell headers r args.titleCol))) = Except.ok fields ∧
      content = build_front_matter fields ++
        pyRstrip (pyJoin "\n" (rowBody args headers r wid)) ++ "\n" := by
  simp only [renderRow] at h
  by_cases hskip : (cell headers r args.idCol = Value.none ∨
      cell headers r args.titleCol = Value.none ∨
      pyStrip (pyStr (cell headers r args.titleCol)) = "")
  · rw [if_pos hskip] at h
    injection h with h1
    exact Option.noConfusion h1
  · rw [if_neg hskip] at h
    cases hs : slug_id (cell headers r args.idCol) 5 with
    | error e =>
      rw [hs] at h
      exact absurd h (by intro hh; exact Except.noConfusion hh)
    | ok w =>
      rw [hs] at h
      replace h : (match rowFields args headers today r w
            (pyStrip (pyStr (cell headers r args.titleCol))) with
          | Except.error e => Except.error e
          | Except.ok fields =>
            Except.ok (some (w, build_front_matter fields ++
              pyRstrip (pyJoin "\n" (rowBody args headers r w)) ++ "\n"))) =
          Except.ok (some (wid, content)) := h
      cases hf : rowFields args headers today r w
          (pyStrip (pyStr (cell headers r args.titleCol))) with
      | error e =>
        rw [hf] at h
        exact absurd h (by intro hh; exact Except.noConfusion hh)
      | ok fields =>
        rw [hf] at h
        injection h with h1
        injection h1 with h2
        rw [Prod.mk.injEq] at h2
        obtain ⟨h3, h4⟩ := h2
        subst h3
        exact ⟨rfl, fields, hf, h4.symm⟩

lemma applyWritePolicy_skip {args : Args} {st : RunState} {wid content c : String}
    (hforce : args.force = false)
    (hex : fsGet st.fs (args.outputDir ++ "/" ++ wid ++ ".md") = some c) :
    applyWritePolicy args st wid content =
      { st with skipped := st.skipped + 1,
                log := st.log ++ ["SKIP (exists): " ++
                  (args.outputDir ++ "/" ++ wid ++ ".md")] } := by
  unfold applyWritePolicy
  rw [if_pos (by rw [hex, hforce]; rfl)]

/-- Claim C6: when the output file for a row's normalized identifier already
exists and force-overwrite is off, a successfully processed row leaves the
file system unchanged (in particular the existing content stays), and the
row is counted as skipped — so a re-run over the same input without
`--force` is non-destructive. -/
theorem C6_skip_existing (args : Args) (headers : List String) (today : String)
    (st st' : RunState) (r : List Value) (wid c : String)
    (hforce : args.force = false)
    (hwid : slug_id (cell headers r args.idCol) 5 = Except.ok wid)
    (hex : fsGet st.fs (args.outputDir ++ "/" ++ wid ++ ".md") = some c)
    (hrun : processRow args headers today st r = Except.ok st') :
    st'.fs = st.fs ∧ st'.skipped = st.skipped + 1 ∧
      fsGet st'.fs (args.outputDir ++ "/" ++ wid ++ ".md") = some c := by
  simp only [processRow] at hrun
  cases hre : renderRow args headers today r with
  | error e =>
    rw [hre] at hrun
    exact absurd hrun (by intro hh; exact Except.noConfusion hh)
  | ok o =>
    rw [hre] at hrun
    cases o with
    | none =>
      injection hrun with h1
      rw [← h1]
      exact ⟨rfl, rfl, hex⟩
    | some p =>
      obtain ⟨wid', content⟩ := p
      have hinv := renderRow_some_inv hre
      have hww : wid' = wid := by
        have h0 := hinv.1.symm.trans hwid
        injection h0
      subst hww
      injection hrun with h1
      rw [← h1, applyWritePolicy_skip hforce hex]
      exact ⟨rfl, rfl, hex⟩

/-- Witness for C6 at a concrete re-run: the existing `works/00001.md` is
kept byte-for-byte and the row is counted as skipped. -/
theorem C6_skip_existing_witness :
    (⟨[("works/00001.md", "old")], 0, 1,
        ["SKIP (exists): works/00001.md"]⟩ : RunState).fs =
      (⟨[("works/00001.md", "old")], 0, 0, []⟩ : RunState).fs ∧
    (⟨[("works/00001.md", "old")], 0, 1,
        ["SKIP (exists): works/00001.md"]⟩ : RunState).skipped =
      (⟨[("works/00001.md", "old")], 0, 0, []⟩ : RunState).skipped + 1 ∧
    fsGet (⟨[("works/00001.md", "old")], 0, 1,
        ["SKIP (exists): works/00001.md"]⟩ : RunState).fs
      (({} : Args).outputDir ++ "/" ++ "00001" ++ ".md") = some "old" :=
  C6_skip_existing ({} : Args) ["id", "title"] "2025-06-01"
    ⟨[("works/00001.md", "old")], 0, 0, []⟩
    ⟨[("works/00001.md", "old")], 0, 1, ["SKIP (exists): works/00001.md"]⟩
    [Value.str "1", Value.str "T"] "00001" "old"
    rfl (by decide) (by decide) (by decide)

/-- Claim C7: a row with an absent identifier cell, or an absent or
blank-trimming title cell, is skipped and counted, never aborting the
batch; a row whose identifier is present but normalizes to an empty digit
string raises `InvalidIdentifier`, which propagates and aborts the whole
run at that row. -/
theorem C7_row_policy (args : Args) (headers : List String) (today : String)
    (st : RunState) (r : List Value) (rs : List (List Value)) :
    ((cell headers r args.idCol = Value.none ∨
        cell headers r args.titleCol = Value.none ∨
        pyStrip (pyStr (cell headers r args.titleCol)) = "") →
      processRow args headers today st r =
        Except.ok { st with skipped := st.skipped + 1 }) ∧
    ((cell headers r args.idCol ≠ Value.none ∧
        cell headers r args.titleCol ≠ Value.none ∧
        pyStrip (pyStr (cell headers r args.titleCol)) ≠ "" ∧
        (stripDotZero (pyStrip (pyStr (cell headers r args.idCol)))).data.filter
          Char.isDigit = []) →
      ∃ e, runRows args headers today st (r :: rs) = (st, some e)) := by
  constructor
  · intro h
    simp only [processRow, renderRow]
    rw [if_pos h]
  · rintro ⟨hid, htitle, htne, hdig⟩
    have herr : slug_id (cell headers r args.idCol) 5 =
        Except.error (PyErr.valueError
          ("Invalid id value: " ++ pyRepr (cell headers r args.idCol))) := by
      simp only [slug_id]
      rw [if_neg hid, if_pos (by rw [hdig])]
    refine ⟨PyErr.valueError
      ("Invalid id value: " ++ pyRepr (cell headers r args.idCol)), ?_⟩
    simp only [runRows, processRow, renderRow]
    rw [if_neg ?_, herr]
    · rintro (hc | hc | hc)
      · exact hid hc
      · exact htitle hc
      · exact htne hc

/-- Witness for C7: a row with no title column is skipped; a row whose id
is `"abc"` aborts the one-row batch with an error. -/
theorem C7_row_policy_witness :
    processRow ({} : Args) ["id"] "2025-06-01" ⟨[], 0, 0, []⟩ [Value.str "1"] =
      Except.ok ⟨[], 0, 1, []⟩ ∧
    ∃ e, runRows ({} : Args) ["id", "title"] "2025-06-01" ⟨[], 0, 0, []⟩
      [[Value.str "abc", Value.str "T"]] = (⟨[], 0, 0, []⟩, some e) := by
  constructor
  · exact (C7_row_policy ({} : Args) ["id"] "2025-06-01" ⟨[], 0, 0, []⟩
      [Value.str "1"] []).1 (by decide)
  · exact (C7_row_policy ({} : Args) ["id", "title"] "2025-06-01" ⟨[], 0, 0, []⟩
      [Value.str "abc", Value.str "T"] []).2 (by refine ⟨?_, ?_, ?_, ?_⟩ <;> decide)

lemma fm_lines_filter (fields : List (String × Value)) :
    fields.filterMap (fun kv => if kv.2 = Value.none then Option.none
      else some (kv.1 ++ ": " ++ to_yaml_value kv.2)) =
    (fields.filter (fun kv => !(kv.2 == Value.none))).filterMap
      (fun kv => if kv.2 = Value.none then Option.none
        else some (kv.1 ++ ": " ++ to_yaml_value kv.2)) := by
  induction fields with
  | nil => rfl
  | cons kv t ih =>
    by_cases hkv : kv.2 = Value.none
    · simp [List.filterMap_cons, List.filter_cons, hkv, ih]
    · simp [List.filterMap_cons, List.filter_cons, hkv, ih]

lemma rowFields_ok_inv {args : Args} {headers : List String} {today : String}
    {r : List Value} {wid title : String} {fields : List (String × Value)}
    (hf : rowFields args headers today r wid title = Except.ok fields) :
    ∃ d0 cd, fields = rowFieldsList args headers today r wid title d0 cd := by
  simp only [rowFields] at hf
  cases hd : rowDates args headers r with
  | error e =>
    rw [hd] at hf
    exact absurd hf (by intro hh; exact Except.noConfusion hh)
  | ok p =>
    obtain ⟨d0, cd⟩ := p
    rw [hd] at hf
    injection hf with h1
    exact ⟨d0, cd, h1.symm⟩

/-- Counterexample to claim C4 as stated: for the row `id = "7"`,
`title = "T"` (no `catalogue_date` column, no tags), the emitted document is
computed exactly, and the string `"catalogue_date"` does not occur anywhere
in it (splitting on it yields a single piece) — the structural key is
absent from the metadata block when its value is null, contradicting
"always present, keyed even when null". -/
theorem C4_structural_keys_counterexample :
    renderRow ({} : Args) ["id", "title"] "2025-01-01"
        [Value.str "7", Value.str "T"] =
      Except.ok (some ("00007",
        "---\ntitle: \"T\"\ndate: \"2025-01-01\"\nlayout: \"theme\"\nwork_id: \"00007\"\n---\n\n")) ∧
    (pySplitOn
      "---\ntitle: \"T\"\ndate: \"2025-01-01\"\nlayout: \"theme\"\nwork_id: \"00007\"\n---\n\n"
      "catalogue_date").length = 1 := by
  constructor
  · decide
  · decide

/-- Claim C4 (amended): the renderer drops every null-valued key from the
metadata block, structural slots included — rendering a field map is the
same as rendering it with all null-valued keys removed.  The builder's
field map itself always carries `catalogue_date` and `tags` entries (null
when absent/empty) and never an `attachments` entry; the optional
descriptive fields are likewise dropped from the block when null. -/
theorem C4_structural_keys_amended :
    (∀ fields : List (String × Value),
      build_front_matter fields =
        build_front_matter (fields.filter (fun kv => !(kv.2 == Value.none)))) ∧
    (∀ (args : Args) (headers : List String) (today : String) (r : List Value)
        (wid title : String) (fields : List (String × Value)),
      rowFields args headers today r wid title = Except.ok fields →
        (∃ v, ("catalogue_date", v) ∈ fields) ∧ (∃ v, ("tags", v) ∈ fields) ∧
        ∀ v, ("attachments", v) ∉ fields) := by
  constructor
  · intro fields
    unfold build_front_matter
    rw [← fm_lines_filter]
  · intro args headers today r wid title fields hf
    obtain ⟨d0, cd, hlist⟩ := rowFields_ok_inv hf
    subst hlist
    refine ⟨?_, ?_, ?_⟩
    · cases cd with
      | none =>
        have hmem : ("catalogue_date", Value.none) ∈
            rowFieldsList args headers today r wid title d0 Option.none := by
          simp only [rowFieldsList]
          exact List.mem_append_left _ (by simp)
        exact ⟨_, hmem⟩
      | some s =>
        have hmem : ("catalogue_date", Value.str s) ∈
            rowFieldsList args headers today r wid title d0 (some s) := by
          simp only [rowFieldsList]
          exact List.mem_append_left _ (by simp)
        exact ⟨_, hmem⟩
    · have hmem : ("tags",
          (if (parse_list (cell headers r args.tagsCol) ",").isEmpty then Value.none
           else Value.list (parse_list (cell headers r args.tagsCol) ","))) ∈
          rowFieldsList args headers today r wid title d0 cd := by
        simp only [rowFieldsList]
        exact List.mem_append_left _ (by simp)
      exact ⟨_, hmem⟩
    · intro v hv
      simp only [rowFieldsList] at hv
      rcases List.mem_append.mp hv with h1 | h1
      · simp only [List.mem_cons, List.not_mem_nil, or_false] at h1
        rcases h1 with h2 | h2 | h2 | h2 | h2 | h2 | h2 | h2 | h2 | h2 | h2 <;>
          (rw [Prod.mk.injEq] at h2; exact absurd h2.1 (by decide))
      · by_cases hp : args.permalink = ""
        · rw [if_pos hp] at h1
          exact absurd h1 (List.not_mem_nil _)
        · rw [if_neg hp] at h1
          rcases List.mem_cons.mp h1 with h2 | h2
          · rw [Prod.mk.injEq] at h2
            exact absurd h2.1 (by decide)
          · exact absurd h2 (List.not_mem_nil _)

/-- Witness for C4 (amended) at a concrete field map and row: a null-only
map renders as an empty block, and the field map of a minimal row carries
the `catalogue_date` and `tags` slots. -/
theorem C4_structural_keys_amended_witness :
    build_front_matter [("catalogue_date", Value.none)] =
      build_front_matter ([("catalogue_date", Value.none)].filter
        (fun kv => !(kv.2 == Value.none))) ∧
    ((∃ v, ("catalogue_date", v) ∈
        rowFieldsList ({} : Args) ["id", "title"] "2025-01-01"
          [Value.str "7", Value.str "T"] "00007" "T" Option.none Option.none) ∧
      (∃ v, ("tags", v) ∈
        rowFieldsList ({} : Args) ["id", "title"] "2025-01-01"
          [Value.str "7", Value.str "T"] "00007" "T" Option.none Option.none) ∧
      ∀ v, ("attachments", v) ∉
        rowFieldsList ({} : Args) ["id", "title"] "2025-01-01"
          [Value.str "7", Value.str "T"] "00007" "T" Option.none Option.none) := by
  constructor
  · exact C4_structural_keys_amended.1 [("catalogue_date", Value.none)]
  · exact C4_structural_keys_amended.2 ({} : Args) ["id", "title"] "2025-01-01"
      [Value.str "7", Value.str "T"] "00007" "T" _ (by decide)

lemma pyJoin_last (l : List String) (s : String) :
    ∃ t, pyJoin "\n" (l ++ [s]) = t ++ s := by
  induction l with
  | nil => exact ⟨"", by cases s; rfl⟩
  | cons a t' ih =>
    obtain ⟨t, ht⟩ := ih
    cases hrest : t' ++ [s] with
    | nil => exact absurd hrest (by simp)
    | cons b rest' =>
      refine ⟨a ++ "\n" ++ t, ?_⟩
      have e1 : pyJoin "\n" ((a :: t') ++ [s]) =
          a ++ "\n" ++ pyJoin "\n" (t' ++ [s]) := by
        rw [List.cons_append, hrest]
        rfl
      rw [e1, ht, ← String.append_assoc]

lemma bfm_suffix (fields : List (String × Value)) :
    ∃ t, build_front_matter fields = t ++ "---\n" := by
  unfold build_front_matter
  obtain ⟨t, ht⟩ := pyJoin_last
    ("---" :: fields.filterMap (fun kv =>
      if kv.2 = Value.none then Option.none
      else some (kv.1 ++ ": " ++ to_yaml_value kv.2))) "---"
  refine ⟨t, ?_⟩
  rw [← List.cons_append, ht, String.append_assoc]
  have e : ("---" : String) ++ "\n" = "---\n" := by decide
  rw [e]

lemma pyRstrip_cases (s : String) :
    pyRstrip s = "" ∨ ∃ l c, (pyRstrip s).data = l ++ [c] ∧
      isPySpace c = false := by
  unfold pyRstrip
  cases hd : s.data.reverse.dropWhile isPySpace with
  | nil =>
    left
    rfl
  | cons c t =>
    right
    refine ⟨t.reverse, c, ?_, dropWhile_head_false hd⟩
    simp

lemma trailing_calc (A B : List Char)
    (hB : B = [] ∨ ∃ L c, B = L ++ [c] ∧ isPySpace c = false) :
    ((A ++ ['-', '-', '-', '\n'] ++ B ++ ['\n']).reverse.takeWhile
      (fun c => c == '\n')).length = if B = [] then 2 else 1 := by
  have hnl : (('\n' : Char) == '\n') = true := by decide
  have hdash : (('-' : Char) == '\n') = false := by decide
  rcases hB with hB | ⟨L, c, hB, hc⟩
  · subst hB
    rw [if_pos rfl]
    simp [List.reverse_append, List.takeWhile_cons, hnl, hdash]
  · subst hB
    rw [if_neg (by simp)]
    have hcnl : (c == '\n') = false := by
      cases hcb : c == '\n' with
      | false => rfl
      | true =>
        have hce : c = '\n' := eq_of_beq hcb
        subst hce
        exact absurd hc (by decide)
    simp [List.reverse_append, List.takeWhile_cons, hnl, hcnl]

/-- Counterexample to claim C8 as stated: for a row with no notes and no
attachments the assembled body is empty, and the emitted content ends with
TWO newline characters (the front matter's final newline plus the
unconditional trailing one), not exactly one. -/
theorem C8_trailing_newline_counterexample :
    renderRow ({} : Args) ["id", "title"] "2025-01-01"
        [Value.str "361", Value.str "T"] =
      Except.ok (some ("00361",
        "---\ntitle: \"T\"\ndate: \"2025-01-01\"\nlayout: \"theme\"\nwork_id: \"00361\"\n---\n\n")) ∧
    trailingNewlines
      "---\ntitle: \"T\"\ndate: \"2025-01-01\"\nlayout: \"theme\"\nwork_id: \"00361\"\n---\n\n" = 2 := by
  constructor
  · decide
  · decide

/-- Claim C8 (amended): the emitted content is the front matter followed by
the body with trailing whitespace trimmed plus one appended newline; when
the trimmed body is non-empty the file therefore ends with exactly one
trailing newline, but when the body is empty it ends with a blank line
(two trailing newlines). -/
theorem C8_trailing_newline_amended (args : Args) (headers : List String)
    (today : String) (r : List Value) (wid content : String)
    (h : renderRow args headers today r = Except.ok (some (wid, content))) :
    (∃ fields, rowFields args headers today r wid
        (pyStrip (pyStr (cell headers r args.titleCol))) = Except.ok fields ∧
      content = build_front_matter fields ++
        pyRstrip (pyJoin "\n" (rowBody args headers r wid)) ++ "\n") ∧
    trailingNewlines content =
      (if pyRstrip (pyJoin "\n" (rowBody args headers r wid)) = "" then 2
       else 1) := by
  obtain ⟨-, fields, hf, hc⟩ := renderRow_some_inv h
  refine ⟨⟨fields, hf, hc⟩, ?_⟩
  subst hc
  obtain ⟨t, ht⟩ := bfm_suffix fields
  rw [ht]
  unfold trailingNewlines
  simp only [String.data_append]
  have hBcases : (pyRstrip (pyJoin "\n" (rowBody args headers r wid))).data = [] ∨
      ∃ L c0, (pyRstrip (pyJoin "\n" (rowBody args headers r wid))).data =
        L ++ [c0] ∧ isPySpace c0 = false := by
    rcases pyRstrip_cases (pyJoin "\n" (rowBody args headers r wid)) with h1 | h1
    · left
      rw [h1]
    · right
      exact h1
  rw [trailing_calc t.data _ hBcases]
  by_cases hbe : pyRstrip (pyJoin "\n" (rowBody args headers r wid)) = ""
  · rw [if_pos (by rw [hbe]), if_pos hbe]
  · rw [if_neg ?_, if_neg hbe]
    intro hh
    exact hbe (congrArg String.mk hh)

/-- Witness for C8 (amended) at the concrete empty-body row of the
counterexample: the content ends with two newlines because the trimmed
body is empty. -/
theorem C8_trailing_newline_amended_witness :
    trailingNewlines
      "---\ntitle: \"T\"\ndate: \"2025-01-01\"\nlayout: \"theme\"\nwork_id: \"00361\"\n---\n\n" =
      (if pyRstrip (pyJoin "\n" (rowBody ({} : Args) ["id", "title"]
          [Value.str "361", Value.str "T"] "00361")) = "" then 2 else 1) :=
  (C8_trailing_newline_amended ({} : Args) ["id", "title"] "2025-01-01"
    [Value.str "361", Value.str "T"] "00361"
    "---\ntitle: \"T\"\ndate: \"2025-01-01\"\nlayout: \"theme\"\nwork_id: \"00361\"\n---\n\n"
    (by decide)).2

end GenWorkPages
